import Mathlib

/-!
Verification of the real-time game core of the smash2cash repository
(src/components/GameScreen.tsx): the target data model, the spatial hash
grid, the object pool, spawning, hit registration, the fall phase of hit
targets, the round countdown and the hand-tracking input mapping.
Positions, velocities and sizes are modelled as rationals; object identity
of target instances is modelled by a numeric id.
-/

namespace Smash2Cash

/-- Species catalog of the game (the name strings of birdTypes). -/
inductive Species where
  | bee
  | butterfly
  | fly
  | ava
deriving DecidableEq, Repr

/-- Rarity tags of BirdType. -/
inductive Rarity where
  | common
  | uncommon
  | rare
  | legendary
deriving DecidableEq, Repr

/-- The BirdType interface: species name, point value, rarity, spawn rate. -/
structure BirdType where
  name : Species
  points : Nat
  rarity : Rarity
  spawnRate : Nat
deriving DecidableEq, Repr

/-- birdTypes[0]. -/
def beeType : BirdType := ⟨.bee, 1, .common, 15⟩

/-- birdTypes[1]. -/
def butterflyType : BirdType := ⟨.butterfly, 2, .uncommon, 10⟩

/-- birdTypes[2]. -/
def flyType : BirdType := ⟨.fly, 5, .rare, 5⟩

/-- birdTypes[3]. -/
def avaType : BirdType := ⟨.ava, 10, .legendary, 2⟩

/-- The fixed four-species catalog birdTypes. -/
def birdTypes : List BirdType := [beeType, butterflyType, flyType, avaType]

/-- getRandomBird: cumulative-weight sampling on one uniform draw in [0,1). -/
def getRandomBird (r : ℚ) : BirdType :=
  if r < 6/10 then beeType
  else if r < 85/100 then butterflyType
  else if r < 95/100 then flyType
  else avaType

/-- Status field of a target: flying or hit. -/
inductive BirdStatus where
  | flying
  | hit
deriving DecidableEq, Repr

/-- Facing direction of a target. -/
inductive Direction where
  | left
  | right
deriving DecidableEq, Repr

/-- BirdAnimation: current frame index and last-frame-advance timestamp. -/
structure BirdAnimation where
  currentFrame : Nat
  lastFrameTime : Nat
deriving DecidableEq, Repr

/-- The BirdPosition interface: one target instance.  The random string id
is modelled as a numeric id standing for object identity. -/
structure BirdPosition where
  id : Nat
  bird : BirdType
  x : ℚ
  y : ℚ
  velocityX : ℚ
  velocityY : ℚ
  direction : Direction
  initialY : ℚ
  status : BirdStatus
  animation : BirdAnimation
  active : Bool
  cellKey : Option (Int × Int)
deriving DecidableEq, Repr

/-- A spatial cell key: the pair of integer floor-divisions. -/
abbrev Cell := Int × Int

/-- The spatial hash: a list of (cell key, bucket of target ids) pairs,
modelling the Map from cell keys to Sets of targets. -/
abbrev Grid := List (Cell × List Nat)

/-- getCellKeyFromXY: floor-division cell of a position. -/
def getCellKeyFromXY (x y cellSize : ℚ) : Cell :=
  (⌊x / cellSize⌋, ⌊y / cellSize⌋)

/-- Adding an id to the bucket of a key (Map.get + Set.add; a fresh bucket
is created when the key is absent, and Set.add is idempotent). -/
def gridAdd (k : Cell) (r : Nat) : Grid → Grid
  | [] => [(k, [r])]
  | (k1, bkt) :: rest =>
      if k1 = k then (k1, if r ∈ bkt then bkt else r :: bkt) :: rest
      else (k1, bkt) :: gridAdd k r rest

/-- Deleting an id from the bucket of a key (Set.delete; an emptied bucket
is dropped from the map). -/
def gridDel (k : Cell) (r : Nat) : Grid → Grid
  | [] => []
  | (k1, bkt) :: rest =>
      if k1 = k then
        (if bkt.erase r = [] then rest else (k1, bkt.erase r) :: rest)
      else (k1, bkt) :: gridDel k r rest

/-- Bucket lookup (Map.get, empty when absent). -/
def bucketGet : Grid → Cell → List Nat
  | [], _ => []
  | (k1, bkt) :: rest, k => if k1 = k then bkt else bucketGet rest k

/-- spatialInsert: computes the bird's cell key from its position, stores
it on the bird and adds the bird to that bucket. -/
def spatialInsert (cs : ℚ) (b : BirdPosition) (g : Grid) : BirdPosition × Grid :=
  let k := getCellKeyFromXY b.x b.y cs
  ({ b with cellKey := some k }, gridAdd k b.id g)

/-- spatialUpdateIfMoved: no-op while the bird stays in its recorded cell;
otherwise the bird moves buckets and its recorded key is refreshed. -/
def spatialUpdateIfMoved (cs : ℚ) (b : BirdPosition) (g : Grid) : BirdPosition × Grid :=
  let nk := getCellKeyFromXY b.x b.y cs
  if b.cellKey = some nk then (b, g)
  else
    let g1 := match b.cellKey with
      | some k => gridDel k b.id g
      | none => g
    ({ b with cellKey := some nk }, gridAdd nk b.id g1)

/-- spatialRemove: removes the bird from its recorded bucket and clears the
recorded key. -/
def spatialRemove (b : BirdPosition) (g : Grid) : BirdPosition × Grid :=
  match b.cellKey with
  | none => (b, g)
  | some k => ({ b with cellKey := none }, gridDel k b.id g)

/-- The freshly allocated instance of createBird (the literal used when the
pool is empty): selected species, everything else zeroed. -/
def freshInstance (bt : BirdType) (now : Nat) : BirdPosition :=
  { id := 0
    bird := bt
    x := 0
    y := 0
    velocityX := 0
    velocityY := 0
    direction := .left
    initialY := 0
    status := .flying
    animation := { currentFrame := 0, lastFrameTime := now }
    active := false
    cellKey := none }

/-- Pool acquisition: birdPoolRef.current.pop() takes the last pooled
instance, else a fresh instance is allocated. -/
def acquireInstance (pool : List BirdPosition) (bt : BirdType) (now : Nat) :
    BirdPosition × List BirdPosition :=
  match pool.getLast? with
  | some p => (p, pool.dropLast)
  | none => (freshInstance bt now, pool)

/-- The field-reset block of createBird: every domain field of the acquired
instance is overwritten with its spawn-time value. -/
def mkSpawnBird (newId : Nat) (bt : BirdType) (x y vx vy : ℚ) (now : Nat)
    (inst : BirdPosition) : BirdPosition :=
  { inst with
    id := newId
    bird := bt
    x := x
    y := y
    velocityX := vx
    velocityY := vy
    direction := if vx > 0 then .right else .left
    initialY := y
    status := .flying
    animation := { currentFrame := 0, lastFrameTime := now }
    active := true
    cellKey := none }

/-- createBird's instance construction: acquire from the pool (or allocate)
and reset all fields. -/
def createBirdInstance (pool : List BirdPosition) (newId : Nat) (bt : BirdType)
    (x y vx vy : ℚ) (now : Nat) : BirdPosition × List BirdPosition :=
  let (inst, pool1) := acquireInstance pool bt now
  (mkSpawnBird newId bt x y vx vy now inst, pool1)

/-- The spawned target as it sits in the active list right after
createBird: the reset instance with the bucket key stored by
spatialInsert. -/
def spawnedBird (cs : ℚ) (newId : Nat) (bt : BirdType) (x y vx vy : ℚ)
    (now : Nat) : BirdPosition :=
  { mkSpawnBird newId bt x y vx vy now (freshInstance bt now) with
    cellKey := some (getCellKeyFromXY x y cs) }

/-- One entry of the round's hit history: species, points, timestamp. -/
structure HitEntry where
  birdType : Species
  points : Nat
  timestamp : Nat
deriving DecidableEq, Repr

/-- birdsRef.current.find on an id: first matching target. -/
def findBird (id : Nat) : List BirdPosition → Option BirdPosition
  | [] => none
  | b :: rest => if b.id = id then some b else findBird id rest

/-- The in-place mutation of catchBird on the caught target: status hit,
horizontal velocity zeroed, vertical velocity set to the downward value 2. -/
def catchBirdMutate (b : BirdPosition) : BirdPosition :=
  { b with status := .hit, velocityX := 0, velocityY := 2 }

/-- Reference mutation of the target found by id: the first matching list
entry is replaced by its mutated version. -/
def markFirstHit (id : Nat) : List BirdPosition → List BirdPosition
  | [] => []
  | b :: rest => if b.id = id then catchBirdMutate b :: rest else b :: markFirstHit id rest

/-- catchBird: find the target by id; only when its status is flying,
append one hit-history entry and mutate the target to hit. -/
def catchBird (birds : List BirdPosition) (history : List HitEntry)
    (id : Nat) (now : Nat) : List BirdPosition × List HitEntry :=
  match findBird id birds with
  | none => (birds, history)
  | some b =>
      if b.status = .flying then
        (markFirstHit id birds, history ++ [⟨b.bird.name, b.bird.points, now⟩])
      else (birds, history)

/-- The derived score: hitHistory.reduce of points starting at 0. -/
def hitHistoryScore (h : List HitEntry) : Nat :=
  h.foldl (fun sum e => sum + e.points) 0

/-- The derived hit count: hitHistory.length. -/
def hitHistoryHits (h : List HitEntry) : Nat :=
  h.length

/-- The gameLoop branch for a hit target, acting on the target and the
grid: constant gravity 0.1 is added to the vertical velocity, the
y-position advances by the new velocity, and the spatial index membership
is refreshed. -/
def hitFallStep (cs : ℚ) (p : BirdPosition × Grid) : BirdPosition × Grid :=
  let b := p.1
  let vy := b.velocityY + 1/10
  spatialUpdateIfMoved cs { b with velocityY := vy, y := b.y + vy } p.2

/-- getScaledSize: responsive scaling against the 896 by 504 reference
size, floored at half the base size. -/
def getScaledSize (w h base : ℚ) : ℚ :=
  max (base * min (w / 896) (h / 504)) (base * (1/2))

/-- The spawn distance of createBird: the scaled 100 capped by a fifth of
the smaller container dimension. -/
def spawnDistance (w h : ℚ) : ℚ :=
  min (getScaledSize w h 100) (min w h * (2/10))

/-- Spawn and target points computed by createBird's switch on the side. -/
structure SpawnGeom where
  x : ℚ
  y : ℚ
  targetX : ℚ
  targetY : ℚ
deriving DecidableEq, Repr

/-- The geometry block of createBird: r1 and r2 are the uniform draws used
for the spawn and the target coordinate along the chosen edge; an
out-of-range side leaves the let-initialized zeroes. -/
def spawnGeometry (w h : ℚ) (side : Nat) (r1 r2 : ℚ) : SpawnGeom :=
  let sd := spawnDistance w h
  match side with
  | 0 => ⟨-sd, max sd (min (h - sd) (r1 * h)), w + sd, max sd (min (h - sd) (r2 * h))⟩
  | 1 => ⟨w + sd, max sd (min (h - sd) (r1 * h)), -sd, max sd (min (h - sd) (r2 * h))⟩
  | 2 => ⟨max sd (min (w - sd) (r1 * w)), -sd, max sd (min (w - sd) (r2 * w)), h + sd⟩
  | 3 => ⟨max sd (min (w - sd) (r1 * w)), h + sd, max sd (min (w - sd) (r2 * w)), -sd⟩
  | _ => ⟨0, 0, 0, 0⟩

/-- The squared distance between spawn point and target point, the square
of the divisor of createBird's velocity computation. -/
def spawnDistSq (g : SpawnGeom) : ℚ :=
  (g.targetX - g.x)^2 + (g.targetY - g.y)^2

/-- createBird's early-exit guard: the call proceeds unless the round is
over, not started, or the container ref is null. -/
def createBirdGuardPasses (gameOver gameStarted containerMounted : Bool) : Bool :=
  !gameOver && gameStarted && containerMounted

/-- velocityX is dx / distance times speed; with distance 0 the division
is 0 / 0, which is NaN in the JS number semantics.  This predicate records
exactly that degeneracy of the velocity computation. -/
def spawnVelocityIsNaN (g : SpawnGeom) : Bool :=
  spawnDistSq g == 0

/-- The round-summary record handed to saveGameData: session kind, player
identity, derived score and hit count, full history, elapsed duration. -/
structure GameSummary where
  sessionSingle : Bool
  hostAddress : Nat
  score : Nat
  hits : Nat
  hitHistory : List HitEntry
  durationSec : Nat
deriving DecidableEq, Repr

/-- Round state: remaining seconds, the over flag, the hit history. -/
structure RoundState where
  seconds : Nat
  gameOver : Bool
  hitHistory : List HitEntry
deriving DecidableEq, Repr

/-- The round at start of play: 60 seconds, running, empty history. -/
def initialRound : RoundState :=
  { seconds := 60, gameOver := false, hitHistory := [] }

/-- The saveGameData guard: game over, at least one hit recorded, and a
player identity available. -/
def saveCondition (s : RoundState) (address : Option Nat) : Bool :=
  s.gameOver && decide (0 < s.hitHistory.length) && address.isSome

/-- The summary assembled by the saveGameData effect. -/
def mkSummary (s : RoundState) (a : Nat) : GameSummary :=
  { sessionSingle := true
    hostAddress := a
    score := hitHistoryScore s.hitHistory
    hits := hitHistoryHits s.hitHistory
    hitHistory := s.hitHistory
    durationSec := 60 - s.seconds }

/-- Events observable by the round controller: a one-second timer tick, or
a registered hit appended to the history. -/
inductive RoundEvent where
  | tick
  | hit (e : HitEntry)
deriving DecidableEq, Repr

/-- One round-controller step.  A tick decrements the counter; at one
remaining second it freezes the round at zero, sets the over flag and, at
that transition only, emits the summary exactly when the saveGameData
guard holds.  Hits append to the history while running.  Once over, the
interval is cleared and nothing further happens. -/
def roundStep (address : Option Nat) (s : RoundState) :
    RoundEvent → RoundState × Option GameSummary
  | .tick =>
      if s.gameOver then (s, none)
      else if s.seconds ≤ 1 then
        let s1 := { s with seconds := 0, gameOver := true }
        (s1, if saveCondition s1 address then address.map (mkSummary s1) else none)
      else ({ s with seconds := s.seconds - 1 }, none)
  | .hit e =>
      if s.gameOver then (s, none)
      else ({ s with hitHistory := s.hitHistory ++ [e] }, none)

/-- Running a round over an event trace, collecting the emitted summaries. -/
def roundRun (address : Option Nat) (s : RoundState) :
    List RoundEvent → RoundState × List GameSummary
  | [] => (s, [])
  | e :: rest =>
      let p := roundStep address s e
      let q := roundRun address p.1 rest
      (q.1, p.2.toList ++ q.2)

/-- The simulation context owned by the game loop: the fresh-identity
counter, the active-target list, the object pool and the spatial hash. -/
structure SimState where
  nextId : Nat
  birds : List BirdPosition
  pool : List BirdPosition
  grid : Grid
deriving Repr

/-- The reset refs at round start: no targets, empty pool, empty grid. -/
def initSimState : SimState :=
  { nextId := 0, birds := [], pool := [], grid := [] }

/-- The index-maintaining operations of a round: spawn (createBird's push
plus spatialInsert), per-tick move (position write plus
spatialUpdateIfMoved), and retirement (spatialRemove plus swap-removal
from the active list, releasing the instance to the pool). -/
inductive SimOp where
  | spawn (bt : BirdType) (x y vx vy : ℚ) (now : Nat)
  | move (id : Nat) (x y : ℚ)
  | retire (id : Nat)

/-- First index and value of the target with a given id. -/
def findBirdIdx (id : Nat) : List BirdPosition → Option (Nat × BirdPosition)
  | [] => none
  | b :: rest =>
      if b.id = id then some (0, b)
      else (findBirdIdx id rest).map (fun p => (p.1 + 1, p.2))

/-- Swap-removal at index i: pop the last element and, when a slot remains
at i, overwrite that slot with it. -/
def swapRemove (l : List BirdPosition) (i : Nat) : List BirdPosition :=
  match l.getLast? with
  | none => []
  | some lastb => (l.dropLast).set i lastb

/-- Spawn: createBird's pool acquisition, field reset, push onto the
active list, and spatialInsert with the frame's cell size. -/
def simStepSpawn (cs : ℚ) (s : SimState) (bt : BirdType) (x y vx vy : ℚ)
    (now : Nat) : SimState :=
  let p := createBirdInstance s.pool s.nextId bt x y vx vy now
  let q := spatialInsert cs p.1 s.grid
  { nextId := s.nextId + 1, birds := s.birds ++ [q.1], pool := p.2, grid := q.2 }

/-- The per-tick position write plus spatialUpdateIfMoved on one target. -/
def simStepMove (cs : ℚ) (s : SimState) (id : Nat) (nx ny : ℚ) : SimState :=
  match findBirdIdx id s.birds with
  | none => s
  | some (i, b) =>
      let q := spatialUpdateIfMoved cs { b with x := nx, y := ny } s.grid
      { s with birds := s.birds.set i q.1, grid := q.2 }

/-- Retirement: spatialRemove, swap-removal at the target's index, release
of the deactivated instance to the pool. -/
def simStepRetire (s : SimState) (id : Nat) : SimState :=
  match findBirdIdx id s.birds with
  | none => s
  | some (i, b) =>
      let q := spatialRemove b s.grid
      { s with
        birds := swapRemove s.birds i
        pool := s.pool ++ [{ q.1 with active := false }]
        grid := q.2 }

def simStep (cs : ℚ) (s : SimState) : SimOp → SimState
  | .spawn bt x y vx vy now => simStepSpawn cs s bt x y vx vy now
  | .move id nx ny => simStepMove cs s id nx ny
  | .retire id => simStepRetire s id

/-- A whole operation sequence from the round-start context. -/
def simRun (cs : ℚ) (ops : List SimOp) : SimState :=
  ops.foldl (simStep cs) initSimState

/-- Membership of an id in the bucket of a key. -/
def InPairs (g : Grid) (k : Cell) (r : Nat) : Prop :=
  ∃ bkt, (k, bkt) ∈ g ∧ r ∈ bkt

/-- The 3 by 3 block of cell offsets scanned by queryNearbyBirds, in the
dy-outer dx-inner loop order. -/
def neighborOffsets : List (Int × Int) :=
  [(-1, -1), (0, -1), (1, -1), (-1, 0), (0, 0), (1, 0), (-1, 1), (0, 1), (1, 1)]

/-- queryNearbyBirds: with cell size max(1, radius * 2), scan the 3 by 3
block of cells around the query point's cell and collect the targets of
those buckets whose status is flying. -/
def queryNearbyBirds (birds : List BirdPosition) (g : Grid) (qx qy radius : ℚ) :
    List Nat :=
  let cellSize := max 1 (radius * 2)
  let ix := ⌊qx / cellSize⌋
  let iy := ⌊qy / cellSize⌋
  neighborOffsets.flatMap fun d =>
    (bucketGet g (ix + d.1, iy + d.2)).filter fun r =>
      match findBird r birds with
      | some b => b.status == .flying
      | none => false

/-- Clamping of a normalized hand coordinate into [0, 1]. -/
def clamp01 (v : ℚ) : ℚ :=
  max 0 (min 1 v)

/-- The onHandData handler composed with updateHandPosition: palm-center
coordinates are clamped to [0,1] and scaled by the container rectangle. -/
def handDataToCursor (sx sy w h : ℚ) : ℚ × ℚ :=
  (clamp01 sx * w, clamp01 sy * h)

/-- The field-reset block produces the same fully specified instance no
matter which instance it starts from. -/
theorem mkSpawnBird_eq (newId : Nat) (bt : BirdType) (x y vx vy : ℚ) (now : Nat)
    (inst : BirdPosition) :
    mkSpawnBird newId bt x y vx vy now inst =
      { id := newId, bird := bt, x := x, y := y, velocityX := vx, velocityY := vy,
        direction := if vx > 0 then .right else .left, initialY := y,
        status := .flying, animation := { currentFrame := 0, lastFrameTime := now },
        active := true, cellKey := none } :=
  rfl

/-- The first component of createBirdInstance does not depend on the pool. -/
theorem createBirdInstance_fst (pool : List BirdPosition) (newId : Nat) (bt : BirdType)
    (x y vx vy : ℚ) (now : Nat) :
    (createBirdInstance pool newId bt x y vx vy now).1 =
      { id := newId, bird := bt, x := x, y := y, velocityX := vx, velocityY := vy,
        direction := if vx > 0 then .right else .left, initialY := y,
        status := .flying, animation := { currentFrame := 0, lastFrameTime := now },
        active := true, cellKey := none } := by
  unfold createBirdInstance acquireInstance
  cases pool.getLast? <;> rfl

/-- C8: pool acquisition resets all domain state: whether the acquired
instance is recycled from the free list or freshly allocated, every domain
field is set to its spawn-time value (fresh id, selected species, spawn
position, computed velocity, direction from the velocity sign, initialY
equal to the spawn y, flying status, frame index 0 with last-frame
timestamp now, active flag set, bucket key cleared), so no state leaks
from prior use. -/
theorem pool_acquisition_resets_all_fields (pool1 pool2 : List BirdPosition)
    (newId : Nat) (bt : BirdType) (x y vx vy : ℚ) (now : Nat) :
    (createBirdInstance pool1 newId bt x y vx vy now).1 =
      { id := newId, bird := bt, x := x, y := y, velocityX := vx, velocityY := vy,
        direction := if vx > 0 then .right else .left, initialY := y,
        status := .flying, animation := { currentFrame := 0, lastFrameTime := now },
        active := true, cellKey := none } ∧
    (createBirdInstance pool1 newId bt x y vx vy now).1 =
      (createBirdInstance pool2 newId bt x y vx vy now).1 :=
  ⟨createBirdInstance_fst pool1 newId bt x y vx vy now,
   (createBirdInstance_fst pool1 newId bt x y vx vy now).trans
     (createBirdInstance_fst pool2 newId bt x y vx vy now).symm⟩

/-- C10: the hand-driven cursor position is always inside the container
rectangle: palm coordinates are clamped into [0,1] before scaling. -/
theorem hand_cursor_always_in_container (sx sy w h : ℚ) (hw : 0 ≤ w) (hh : 0 ≤ h) :
    0 ≤ (handDataToCursor sx sy w h).1 ∧ (handDataToCursor sx sy w h).1 ≤ w ∧
    0 ≤ (handDataToCursor sx sy w h).2 ∧ (handDataToCursor sx sy w h).2 ≤ h := by
  have hx0 : 0 ≤ clamp01 sx := le_max_left 0 _
  have hy0 : 0 ≤ clamp01 sy := le_max_left 0 _
  have hx1 : clamp01 sx ≤ 1 := max_le (by norm_num) (min_le_left 1 sx)
  have hy1 : clamp01 sy ≤ 1 := max_le (by norm_num) (min_le_left 1 sy)
  refine ⟨mul_nonneg hx0 hw, ?_, mul_nonneg hy0 hh, ?_⟩
  · calc clamp01 sx * w ≤ 1 * w := mul_le_mul_of_nonneg_right hx1 hw
    _ = w := one_mul w
  · calc clamp01 sy * h ≤ 1 * h := mul_le_mul_of_nonneg_right hy1 hh
    _ = h := one_mul h

/-- Witness for C10 at palm coordinates outside the normalized range. -/
theorem hand_cursor_always_in_container_witness :
    0 ≤ (handDataToCursor (3/2) (-2) 896 504).1 ∧
    (handDataToCursor (3/2) (-2) 896 504).1 ≤ 896 ∧
    0 ≤ (handDataToCursor (3/2) (-2) 896 504).2 ∧
    (handDataToCursor (3/2) (-2) 896 504).2 ≤ 504 :=
  hand_cursor_always_in_container (3/2) (-2) 896 504 (by norm_num) (by norm_num)

/-- C7: species selection is cumulative-weight sampling on one uniform
draw in [0,1): Bee on [0, 0.6), Butterfly on [0.6, 0.85), Fly on
[0.85, 0.95), Ava on [0.95, 1), that is with probabilities 60, 25, 10 and
5 percent over the fixed catalog. -/
theorem species_selection_thresholds (r : ℚ) (h0 : 0 ≤ r) (h1 : r < 1) :
    (getRandomBird r = beeType ↔ r < 6/10) ∧
    (getRandomBird r = butterflyType ↔ 6/10 ≤ r ∧ r < 85/100) ∧
    (getRandomBird r = flyType ↔ 85/100 ≤ r ∧ r < 95/100) ∧
    (getRandomBird r = avaType ↔ 95/100 ≤ r) ∧
    getRandomBird r ∈ birdTypes := by
  unfold getRandomBird
  split_ifs with hA hB hC
  · refine ⟨iff_of_true rfl hA, iff_of_false (by decide) ?_,
      iff_of_false (by decide) ?_, iff_of_false (by decide) ?_, by decide⟩
    · intro h; linarith [h.1]
    · intro h; linarith [h.1]
    · intro h; linarith
  · refine ⟨iff_of_false (by decide) hA, iff_of_true rfl ⟨not_lt.mp hA, hB⟩,
      iff_of_false (by decide) ?_, iff_of_false (by decide) ?_, by decide⟩
    · intro h; linarith [h.1]
    · intro h; linarith
  · refine ⟨iff_of_false (by decide) hA, iff_of_false (by decide) (fun h => hB h.2),
      iff_of_true rfl ⟨not_lt.mp hB, hC⟩, iff_of_false (by decide) ?_, by decide⟩
    intro h; linarith
  · exact ⟨iff_of_false (by decide) hA, iff_of_false (by decide) (fun h => hB h.2),
      iff_of_false (by decide) (fun h => hC h.2), iff_of_true rfl (not_lt.mp hC),
      by decide⟩

/-- Witness for C7 at the draw 9/10, which selects the Fly species. -/
theorem species_selection_thresholds_witness :
    getRandomBird (9/10) = flyType :=
  ((species_selection_thresholds (9/10) (by norm_num) (by norm_num)).2.2.1).mpr
    (by norm_num)

theorem foldl_points_eq (h : List HitEntry) (a : Nat) :
    h.foldl (fun sum e => sum + e.points) a = a + (h.map HitEntry.points).sum := by
  induction h generalizing a with
  | nil => simp
  | cons e t ih => simp [ih, Nat.add_assoc]

/-- C3: score and hit count are derived from the append-only hit history:
the score is the fold of points over the history and equals the sum of the
points field, the hit count is the history's length, and catchBird only
ever appends (at most one entry) to the history. -/
theorem score_and_hits_derived_from_history :
    (∀ h : List HitEntry, hitHistoryScore h = (h.map HitEntry.points).sum ∧
      hitHistoryHits h = h.length) ∧
    (∀ birds history id now, (catchBird birds history id now).2 = history ∨
      ∃ b, findBird id birds = some b ∧ b.status = .flying ∧
        (catchBird birds history id now).2 =
          history ++ [⟨b.bird.name, b.bird.points, now⟩]) := by
  constructor
  · intro h
    exact ⟨(foldl_points_eq h 0).trans (Nat.zero_add _), rfl⟩
  · intro birds history id now
    unfold catchBird
    cases hf : findBird id birds with
    | none => exact Or.inl rfl
    | some b =>
        by_cases hs : b.status = .flying
        · exact Or.inr ⟨b, rfl, hs, by simp [hs]⟩
        · simp [hs]

theorem catchBirdMutate_id (b : BirdPosition) : (catchBirdMutate b).id = b.id := rfl

theorem findBird_markFirstHit (id : Nat) (l : List BirdPosition) :
    findBird id (markFirstHit id l) = (findBird id l).map catchBirdMutate := by
  induction l with
  | nil => rfl
  | cons b rest ih =>
      by_cases hb : b.id = id
      · simp [markFirstHit, findBird, hb, catchBirdMutate_id]
      · simp [markFirstHit, findBird, hb, ih]

/-- C2: hit registration is idempotent per target: a target is transitioned
only when flying; when the target found by id is not flying the call
changes nothing and appends no history entry; a second registration of the
same id after a successful one changes nothing; and every target returned
by a spatial neighbor query is flying. -/
theorem hit_registration_idempotent :
    (∀ birds history id now b, findBird id birds = some b → b.status ≠ .flying →
      catchBird birds history id now = (birds, history)) ∧
    (∀ birds history id now, findBird id birds = none →
      catchBird birds history id now = (birds, history)) ∧
    (∀ birds history id now now2,
      catchBird (catchBird birds history id now).1 (catchBird birds history id now).2
          id now2 =
        catchBird birds history id now) ∧
    (∀ birds g qx qy radius ref, ref ∈ queryNearbyBirds birds g qx qy radius →
      ∃ b, findBird ref birds = some b ∧ b.status = .flying) := by
  refine ⟨?_, ?_, ?_, ?_⟩
  · intro birds history id now b hf hs
    unfold catchBird
    rw [hf]
    simp [hs]
  · intro birds history id now hf
    unfold catchBird
    rw [hf]
  · intro birds history id now now2
    cases hf : findBird id birds with
    | none =>
        have h1 : catchBird birds history id now = (birds, history) := by
          unfold catchBird; rw [hf]
        rw [h1]
        unfold catchBird; rw [hf]
    | some b =>
        by_cases hs : b.status = .flying
        · have h1 : catchBird birds history id now =
              (markFirstHit id birds, history ++ [⟨b.bird.name, b.bird.points, now⟩]) := by
            unfold catchBird; rw [hf]; simp [hs]
          rw [h1]
          unfold catchBird
          rw [findBird_markFirstHit, hf]
          simp [catchBirdMutate]
        · have h1 : catchBird birds history id now = (birds, history) := by
            unfold catchBird; rw [hf]; simp [hs]
          rw [h1]
          unfold catchBird; rw [hf]; simp [hs]
  · intro birds g qx qy radius ref href
    unfold queryNearbyBirds at href
    simp only [List.mem_flatMap, List.mem_filter] at href
    obtain ⟨d, _, _, hmatch⟩ := href
    cases hf : findBird ref birds with
    | none => rw [hf] at hmatch; simp at hmatch
    | some b =>
        rw [hf] at hmatch
        exact ⟨b, rfl, by simpa using hmatch⟩

/-- Witness for C2: registering a hit on an already-hit target changes
neither the target list nor the history. -/
theorem hit_registration_idempotent_witness :
    catchBird [{ id := 5, bird := beeType, x := 10, y := 20, velocityX := 0,
                 velocityY := 2, direction := .left, initialY := 20, status := .hit,
                 animation := { currentFrame := 0, lastFrameTime := 0 },
                 active := true, cellKey := none }] [] 5 7 =
      ([{ id := 5, bird := beeType, x := 10, y := 20, velocityX := 0,
          velocityY := 2, direction := .left, initialY := 20, status := .hit,
          animation := { currentFrame := 0, lastFrameTime := 0 },
          active := true, cellKey := none }], []) :=
  hit_registration_idempotent.1 _ [] 5 7 _ rfl (by decide)

theorem spatialUpdateIfMoved_fst (cs : ℚ) (b : BirdPosition) (g : Grid) :
    (spatialUpdateIfMoved cs b g).1 =
      { b with cellKey := some (getCellKeyFromXY b.x b.y cs) } := by
  unfold spatialUpdateIfMoved
  by_cases hck : b.cellKey = some (getCellKeyFromXY b.x b.y cs)
  · simp only [hck, if_pos rfl]
    cases b
    simp_all
  · simp only [if_neg hck]

theorem hitFallStep_fst (cs : ℚ) (p : BirdPosition × Grid) :
    (hitFallStep cs p).1 =
      { p.1 with
        velocityY := p.1.velocityY + 1/10
        y := p.1.y + (p.1.velocityY + 1/10)
        cellKey := some (getCellKeyFromXY p.1.x (p.1.y + (p.1.velocityY + 1/10)) cs) } := by
  unfold hitFallStep
  rw [spatialUpdateIfMoved_fst]

theorem hitFallStep_iter_frame (cs : ℚ) (p : BirdPosition × Grid) (n : Nat) :
    ((hitFallStep cs)^[n] p).1.x = p.1.x ∧
    ((hitFallStep cs)^[n] p).1.velocityX = p.1.velocityX ∧
    ((hitFallStep cs)^[n] p).1.bird = p.1.bird ∧
    ((hitFallStep cs)^[n] p).1.direction = p.1.direction ∧
    ((hitFallStep cs)^[n] p).1.initialY = p.1.initialY ∧
    ((hitFallStep cs)^[n] p).1.status = p.1.status ∧
    ((hitFallStep cs)^[n] p).1.velocityY = p.1.velocityY + n * (1/10) := by
  induction n with
  | zero => simp
  | succ m ih =>
      rw [Function.iterate_succ_apply']
      rw [hitFallStep_fst]
      refine ⟨ih.1, ih.2.1, ih.2.2.1, ih.2.2.2.1, ih.2.2.2.2.1, ih.2.2.2.2.2.1, ?_⟩
      have hv := ih.2.2.2.2.2.2
      simp only [hv]
      push_cast
      ring

/-- C9: transitioning a target to hit zeroes its horizontal velocity and
sets its vertical velocity to the downward constant 2; every subsequent
tick of the hit branch changes only the vertical velocity (gravity 0.1
added), the y-position and the spatial bucket key, so the x-position,
horizontal velocity, species (hence points), direction, initial Y and hit
status are all unchanged after any number of ticks: the target falls
straight down from where it was hit. -/
theorem hit_target_falls_straight_down (cs : ℚ) (b : BirdPosition) (g : Grid) (n : Nat) :
    (catchBirdMutate b).velocityX = 0 ∧
    (catchBirdMutate b).velocityY = 2 ∧
    (catchBirdMutate b).status = .hit ∧
    (catchBirdMutate b).x = b.x ∧
    ((hitFallStep cs)^[n] (catchBirdMutate b, g)).1.x = b.x ∧
    ((hitFallStep cs)^[n] (catchBirdMutate b, g)).1.velocityX = 0 ∧
    ((hitFallStep cs)^[n] (catchBirdMutate b, g)).1.bird = b.bird ∧
    ((hitFallStep cs)^[n] (catchBirdMutate b, g)).1.direction = b.direction ∧
    ((hitFallStep cs)^[n] (catchBirdMutate b, g)).1.initialY = b.initialY ∧
    ((hitFallStep cs)^[n] (catchBirdMutate b, g)).1.status = .hit ∧
    ((hitFallStep cs)^[n] (catchBirdMutate b, g)).1.velocityY = 2 + n * (1/10) := by
  have hframe := hitFallStep_iter_frame cs (catchBirdMutate b, g) n
  refine ⟨rfl, rfl, rfl, rfl, ?_, ?_, ?_, ?_, ?_, ?_, ?_⟩
  · exact hframe.1
  · exact hframe.2.1
  · exact hframe.2.2.1
  · exact hframe.2.2.2.1
  · exact hframe.2.2.2.2.1
  · exact hframe.2.2.2.2.2.1
  · exact hframe.2.2.2.2.2.2

/-- Counterexample to C4: with a mounted play container whose measured
width and height are both 0, createBird's guard still passes (spawning is
not a no-op), and the spawn geometry degenerates to distance 0, so the
velocity computation divides 0 by 0, producing NaN velocities. -/
theorem zero_size_spawn_not_noop_counterexample :
    createBirdGuardPasses false true true = true ∧
    spawnVelocityIsNaN (spawnGeometry 0 0 0 (1/3) (2/3)) = true := by
  constructor
  · rfl
  · unfold spawnVelocityIsNaN spawnDistSq spawnGeometry spawnDistance getScaledSize
    norm_num

/-- C4 amended: spawning is a no-op only when the round is over, not yet
started, or the play container is unmounted; with a mounted container of
zero measured width and height, createBird proceeds, the distance between
spawn and target point is 0 for every side and every random draw, and the
velocity computation divides by zero, assigning NaN velocities. -/
theorem zero_size_spawn_divides_by_zero (go gs : Bool) (side : Nat) (r1 r2 : ℚ) :
    createBirdGuardPasses go gs false = false ∧
    createBirdGuardPasses false true true = true ∧
    spawnDistSq (spawnGeometry 0 0 side r1 r2) = 0 ∧
    spawnVelocityIsNaN (spawnGeometry 0 0 side r1 r2) = true := by
  have hsd : spawnDistance 0 0 = 0 := by
    unfold spawnDistance getScaledSize
    norm_num
  have hdist : spawnDistSq (spawnGeometry 0 0 side r1 r2) = 0 := by
    unfold spawnGeometry
    rw [hsd]
    rcases side with _ | _ | _ | _ | n <;> simp [spawnDistSq]
  refine ⟨by simp [createBirdGuardPasses], rfl, hdist, ?_⟩
  unfold spawnVelocityIsNaN
  rw [hdist]
  rfl

/-- Witness for the amended C4 statement at side 2 and concrete draws. -/
theorem zero_size_spawn_divides_by_zero_witness :
    createBirdGuardPasses true true false = false ∧
    createBirdGuardPasses false true true = true ∧
    spawnDistSq (spawnGeometry 0 0 2 (1/4) (3/4)) = 0 ∧
    spawnVelocityIsNaN (spawnGeometry 0 0 2 (1/4) (3/4)) = true :=
  zero_size_spawn_divides_by_zero true true 2 (1/4) (3/4)

theorem roundRun_gameOver (address : Option Nat) (s : RoundState)
    (events : List RoundEvent) (h : s.gameOver = true) :
    roundRun address s events = (s, []) := by
  induction events with
  | nil => rfl
  | cons e rest ih =>
      cases e <;> simp [roundRun, roundStep, h, ih]

theorem roundRun_handoff_at_most_once (address : Option Nat) (s : RoundState)
    (events : List RoundEvent) :
    (roundRun address s events).2.length ≤ 1 := by
  induction events generalizing s with
  | nil => simp [roundRun]
  | cons e rest ih =>
      cases e with
      | tick =>
          by_cases ho : s.gameOver
          · simp [roundRun, roundStep, ho, ih]
          · by_cases hsec : s.seconds ≤ 1
            · have hover : ({ s with seconds := 0, gameOver := true } : RoundState).gameOver = true := rfl
              simp [roundRun, roundStep, ho, hsec,
                roundRun_gameOver address _ rest hover]
              split
              · cases address <;> simp
              · simp
            · simp [roundRun, roundStep, ho, hsec, ih]
      | hit e =>
          by_cases ho : s.gameOver
          · simp [roundRun, roundStep, ho, ih]
          · simp [roundRun, roundStep, ho, ih]

theorem roundRun_cons (address : Option Nat) (s : RoundState) (e : RoundEvent)
    (rest : List RoundEvent) :
    roundRun address s (e :: rest) =
      ((roundRun address (roundStep address s e).1 rest).1,
        (roundStep address s e).2.toList ++
          (roundRun address (roundStep address s e).1 rest).2) :=
  rfl

theorem roundRun_ticks_no_hits (address : Option Nat) (n : Nat) (h1 : 1 ≤ n) :
    roundRun address { seconds := n, gameOver := false, hitHistory := [] }
        (List.replicate n .tick) =
      ({ seconds := 0, gameOver := true, hitHistory := [] }, []) := by
  induction n with
  | zero => omega
  | succ m ih =>
      cases m with
      | zero =>
          simp [roundRun, roundStep, saveCondition]
      | succ k =>
          have hm : 1 ≤ k + 1 := by omega
          have hstep : roundStep address
              { seconds := k + 2, gameOver := false, hitHistory := [] } .tick =
              ({ seconds := k + 1, gameOver := false, hitHistory := [] }, none) := by
            simp [roundStep]
          rw [List.replicate_succ, roundRun_cons, hstep]
          simp [ih hm]

/-- C6: the round counter starts at 60 and decrements once per one-second
tick while running; on reaching zero the round transitions to over; the
round summary (session kind, player identity, derived score and hit
count, full history, duration) is emitted at that transition exactly when
at least one hit was recorded and a player identity is available, and at
most once over any event trace; in particular after 60 ticks with no hits
the round is over and the hand-off is skipped. -/
theorem round_countdown_and_handoff :
    initialRound.seconds = 60 ∧
    initialRound.gameOver = false ∧
    (∀ address s, s.gameOver = false → 1 < s.seconds →
      roundStep address s .tick = ({ s with seconds := s.seconds - 1 }, none)) ∧
    (∀ address s, s.gameOver = false → s.seconds ≤ 1 →
      (roundStep address s .tick).1 = { s with seconds := 0, gameOver := true } ∧
      ((roundStep address s .tick).2 ≠ none ↔
        s.hitHistory ≠ [] ∧ address.isSome = true)) ∧
    (∀ address a s, s.gameOver = false → s.seconds ≤ 1 → address = some a →
      s.hitHistory ≠ [] →
      (roundStep address s .tick).2 =
        some (mkSummary { s with seconds := 0, gameOver := true } a)) ∧
    (∀ address s events, (roundRun address s events).2.length ≤ 1) ∧
    (∀ address, roundRun address initialRound (List.replicate 60 .tick) =
      ({ seconds := 0, gameOver := true, hitHistory := [] }, [])) := by
  refine ⟨rfl, rfl, ?_, ?_, ?_, roundRun_handoff_at_most_once, ?_⟩
  · intro address s ho hs
    have : ¬ s.seconds ≤ 1 := by omega
    simp [roundStep, ho, this]
  · intro address s ho hs
    constructor
    · simp [roundStep, ho, hs]
    · simp only [roundStep, ho, Bool.false_eq_true, if_false, hs, if_true]
      constructor
      · intro hne
        by_cases hsc : saveCondition { s with seconds := 0, gameOver := true } address = true
        · have := (Bool.and_eq_true _ _).mp ((Bool.and_eq_true _ _).mp hsc).1
          refine ⟨?_, ((Bool.and_eq_true _ _).mp hsc).2⟩
          have hlen := this.2
          simp only [decide_eq_true_eq] at hlen
          intro hnil
          rw [hnil] at hlen
          simp at hlen
        · simp [hsc] at hne
      · rintro ⟨hhist, haddr⟩
        have hsc : saveCondition { s with seconds := 0, gameOver := true } address = true := by
          unfold saveCondition
          simp [haddr]
          exact List.length_pos.mpr hhist
        simp [hsc]
        cases address with
        | none => simp at haddr
        | some a => simp
  · intro address a s ho hs haddr hhist
    subst haddr
    have hsc : saveCondition { s with seconds := 0, gameOver := true } (some a) = true := by
      unfold saveCondition
      simp
      exact List.length_pos.mpr hhist
    simp [roundStep, ho, hs, hsc, Option.map]
  · intro address
    exact roundRun_ticks_no_hits address 60 (by omega)

/-- Witness for C6: at one remaining second and a nonempty history with an
identity present, the tick freezes the round and emits the summary. -/
theorem round_countdown_and_handoff_witness :
    (roundStep (some 3) ⟨1, false, [⟨.bee, 1, 100⟩]⟩ .tick).2 =
      some (mkSummary ⟨0, true, [⟨.bee, 1, 100⟩]⟩ 3) :=
  round_countdown_and_handoff.2.2.2.2.1 (some 3) 3 ⟨1, false, [⟨.bee, 1, 100⟩]⟩
    rfl (Nat.le_refl 1) rfl (by simp)

theorem abs_sub_le_of_sq_le_sq (a b r : ℚ) (hr : 0 ≤ r) (h : (a - b)^2 ≤ r^2) :
    |a - b| ≤ r := by
  rw [abs_le]
  constructor <;> nlinarith [sq_nonneg (a - b + r), sq_nonneg (a - b - r)]

theorem floor_cell_adjacent (cs a b : ℚ) (hcs : 0 < cs) (h : |a - b| ≤ cs) :
    ⌊b / cs⌋ - 1 ≤ ⌊a / cs⌋ ∧ ⌊a / cs⌋ ≤ ⌊b / cs⌋ + 1 := by
  obtain ⟨hlo, hhi⟩ := abs_le.mp h
  have hne : cs ≠ 0 := ne_of_gt hcs
  constructor
  · have h5 : (b - cs) / cs ≤ a / cs := by
      apply div_le_div_of_nonneg_right ?_ hcs.le
      linarith
    have h6 : (b - cs) / cs = b / cs - 1 := by
      field_simp
    rw [h6] at h5
    have h7 := Int.floor_le_floor h5
    rw [Int.floor_sub_one] at h7
    exact h7
  · have h5 : a / cs ≤ (b + cs) / cs := by
      apply div_le_div_of_nonneg_right ?_ hcs.le
      linarith
    have h6 : (b + cs) / cs = b / cs + 1 := by
      field_simp
    rw [h6] at h5
    have h7 := Int.floor_le_floor h5
    rw [Int.floor_add_one] at h7
    exact h7

theorem findBird_of_nodup (l : List BirdPosition) (b : BirdPosition)
    (hnd : (l.map BirdPosition.id).Nodup) (hb : b ∈ l) :
    findBird b.id l = some b := by
  induction l with
  | nil => simp at hb
  | cons a rest ih =>
      rcases List.mem_cons.mp hb with rfl | hmem
      · simp [findBird]
      · have hne : a.id ≠ b.id := by
          intro he
          have : b.id ∈ rest.map BirdPosition.id := List.mem_map_of_mem _ hmem
          rw [← he] at this
          exact (List.nodup_cons.mp hnd).1 this
        simp [findBird, hne, ih (List.nodup_cons.mp hnd).2 hmem]

/-- C5: queryNearbyBirds with cell size max(1, 2 r) scans exactly the 3 by
3 block of cells around the query point's cell and returns exactly the
flying targets of those buckets; and every flying target stored under the
cell of its own position whose position lies within distance r of the
query point is returned (the block covers the query circle). -/
theorem query_neighbors_coverage (birds : List BirdPosition) (g : Grid)
    (qx qy radius : ℚ) :
    (∀ r, r ∈ queryNearbyBirds birds g qx qy radius ↔
      ∃ d ∈ neighborOffsets,
        r ∈ bucketGet g (⌊qx / max 1 (radius * 2)⌋ + d.1,
                          ⌊qy / max 1 (radius * 2)⌋ + d.2) ∧
        ∃ b, findBird r birds = some b ∧ b.status = .flying) ∧
    (∀ b ∈ birds, (birds.map BirdPosition.id).Nodup → 0 ≤ radius →
      b.status = .flying →
      b.id ∈ bucketGet g (getCellKeyFromXY b.x b.y (max 1 (radius * 2))) →
      (b.x - qx)^2 + (b.y - qy)^2 ≤ radius^2 →
      b.id ∈ queryNearbyBirds birds g qx qy radius) := by
  constructor
  · intro r
    unfold queryNearbyBirds
    simp only [List.mem_flatMap, List.mem_filter]
    constructor
    · rintro ⟨d, hd, hbkt, hmatch⟩
      refine ⟨d, hd, hbkt, ?_⟩
      cases hf : findBird r birds with
      | none => rw [hf] at hmatch; simp at hmatch
      | some b =>
          rw [hf] at hmatch
          exact ⟨b, rfl, by simpa using hmatch⟩
    · rintro ⟨d, hd, hbkt, b, hf, hst⟩
      exact ⟨d, hd, hbkt, by rw [hf]; simpa using hst⟩
  · intro b hb hnd hr hst hstored hdist
    have hcs : (0 : ℚ) < max 1 (radius * 2) :=
      lt_of_lt_of_le one_pos (le_max_left 1 (radius * 2))
    have hrcs : radius ≤ max 1 (radius * 2) := by
      rcases le_total radius 1 with h | h
      · exact le_trans h (le_max_left _ _)
      · exact le_trans (by linarith) (le_max_right _ _)
    have hxsq : (b.x - qx)^2 ≤ radius^2 := by nlinarith [sq_nonneg (b.y - qy)]
    have hysq : (b.y - qy)^2 ≤ radius^2 := by nlinarith [sq_nonneg (b.x - qx)]
    have hxabs : |b.x - qx| ≤ max 1 (radius * 2) :=
      le_trans (abs_sub_le_of_sq_le_sq _ _ _ hr hxsq) hrcs
    have hyabs : |b.y - qy| ≤ max 1 (radius * 2) :=
      le_trans (abs_sub_le_of_sq_le_sq _ _ _ hr hysq) hrcs
    obtain ⟨hx1, hx2⟩ := floor_cell_adjacent _ _ _ hcs hxabs
    obtain ⟨hy1, hy2⟩ := floor_cell_adjacent _ _ _ hcs hyabs
    set cs := max 1 (radius * 2) with hcsdef
    set ix := ⌊qx / cs⌋ with hix
    set iy := ⌊qy / cs⌋ with hiy
    set kx := ⌊b.x / cs⌋ with hkx
    set ky := ⌊b.y / cs⌋ with hky
    have hdx : kx - ix = -1 ∨ kx - ix = 0 ∨ kx - ix = 1 := by omega
    have hdy : ky - iy = -1 ∨ ky - iy = 0 ∨ ky - iy = 1 := by omega
    have hdmem : (kx - ix, ky - iy) ∈ neighborOffsets := by
      rcases hdx with h | h | h <;> rcases hdy with h2 | h2 | h2 <;>
        simp [neighborOffsets, h, h2]
    unfold queryNearbyBirds
    simp only [List.mem_flatMap, List.mem_filter]
    refine ⟨(kx - ix, ky - iy), hdmem, ?_, ?_⟩
    · rw [show ix + (kx - ix) = kx by omega, show iy + (ky - iy) = ky by omega]
      exact hstored
    · rw [findBird_of_nodup birds b hnd hb]
      simpa using hst

theorem inPairs_nil (k : Cell) (r : Nat) : ¬ InPairs [] k r := by
  simp [InPairs]

theorem inPairs_cons (k2 : Cell) (bkt : List Nat) (rest : Grid) (k1 : Cell) (r1 : Nat) :
    InPairs ((k2, bkt) :: rest) k1 r1 ↔ (k1 = k2 ∧ r1 ∈ bkt) ∨ InPairs rest k1 r1 := by
  unfold InPairs
  constructor
  · rintro ⟨b, hb, hr⟩
    rcases List.mem_cons.mp hb with he | hmem
    · have hk : k1 = k2 := congrArg Prod.fst he
      have hbk : b = bkt := congrArg Prod.snd he
      exact Or.inl ⟨hk, hbk ▸ hr⟩
    · exact Or.inr ⟨b, hmem, hr⟩
  · rintro (⟨rfl, hr⟩ | ⟨b, hb, hr⟩)
    · exact ⟨bkt, List.mem_cons_self _ _, hr⟩
    · exact ⟨b, List.mem_cons_of_mem _ hb, hr⟩

theorem inPairs_key_mem (g : Grid) (k : Cell) (r : Nat) (h : InPairs g k r) :
    k ∈ g.map Prod.fst := by
  obtain ⟨b, hb, _⟩ := h
  exact List.mem_map_of_mem Prod.fst hb

theorem inPairs_gridAdd (g : Grid) (k : Cell) (r : Nat) (k1 : Cell) (r1 : Nat) :
    InPairs (gridAdd k r g) k1 r1 ↔ InPairs g k1 r1 ∨ (k1 = k ∧ r1 = r) := by
  induction g with
  | nil =>
      rw [show gridAdd k r [] = [(k, [r])] from rfl, inPairs_cons]
      simp [inPairs_nil]
  | cons p rest ih =>
      obtain ⟨k2, bkt⟩ := p
      by_cases hk : k2 = k
      · subst hk
        rw [show gridAdd k2 r ((k2, bkt) :: rest) =
              (k2, if r ∈ bkt then bkt else r :: bkt) :: rest from by
            simp [gridAdd]]
        rw [inPairs_cons, inPairs_cons]
        by_cases hrb : r ∈ bkt
        · rw [if_pos hrb]
          constructor
          · exact fun h => Or.inl h
          · rintro ((h | h) | ⟨rfl, rfl⟩)
            · exact Or.inl h
            · exact Or.inr h
            · exact Or.inl ⟨rfl, hrb⟩
        · rw [if_neg hrb]
          constructor
          · rintro (⟨rfl, hr⟩ | h)
            · rcases List.mem_cons.mp hr with rfl | hr2
              · exact Or.inr ⟨rfl, rfl⟩
              · exact Or.inl (Or.inl ⟨rfl, hr2⟩)
            · exact Or.inl (Or.inr h)
          · rintro ((⟨rfl, hr⟩ | h) | ⟨rfl, rfl⟩)
            · exact Or.inl ⟨rfl, List.mem_cons_of_mem _ hr⟩
            · exact Or.inr h
            · exact Or.inl ⟨rfl, List.mem_cons_self _ _⟩
      · rw [show gridAdd k r ((k2, bkt) :: rest) = (k2, bkt) :: gridAdd k r rest from by
            simp [gridAdd, hk]]
        rw [inPairs_cons, inPairs_cons, ih]
        tauto

theorem mem_keys_gridAdd (g : Grid) (k : Cell) (r : Nat) (k1 : Cell) :
    k1 ∈ (gridAdd k r g).map Prod.fst ↔ k1 ∈ g.map Prod.fst ∨ k1 = k := by
  induction g with
  | nil => simp [gridAdd]
  | cons p rest ih =>
      obtain ⟨k2, bkt⟩ := p
      by_cases hk : k2 = k
      · subst hk
        simp [gridAdd]
        tauto
      · simp [gridAdd, if_neg hk, ih]
        tauto

theorem gridAdd_keys_nodup (g : Grid) (k : Cell) (r : Nat)
    (h : (g.map Prod.fst).Nodup) : ((gridAdd k r g).map Prod.fst).Nodup := by
  induction g with
  | nil => simp [gridAdd]
  | cons p rest ih =>
      obtain ⟨k2, bkt⟩ := p
      simp only [List.map_cons, List.nodup_cons] at h
      by_cases hk : k2 = k
      · subst hk
        rw [show gridAdd k2 r ((k2, bkt) :: rest) =
              (k2, if r ∈ bkt then bkt else r :: bkt) :: rest from by
            simp [gridAdd]]
        rw [List.map_cons, List.nodup_cons]
        exact h
      · rw [show gridAdd k r ((k2, bkt) :: rest) = (k2, bkt) :: gridAdd k r rest from by
            simp [gridAdd, hk]]
        rw [List.map_cons, List.nodup_cons]
        refine ⟨?_, ih h.2⟩
        rw [mem_keys_gridAdd]
        rintro (hmem | rfl)
        · exact h.1 hmem
        · exact hk rfl

theorem gridAdd_buckets_nodup (g : Grid) (k : Cell) (r : Nat)
    (h : ∀ p ∈ g, (p : Cell × List Nat).2.Nodup) :
    ∀ p ∈ gridAdd k r g, (p : Cell × List Nat).2.Nodup := by
  induction g with
  | nil =>
      rw [show gridAdd k r [] = [(k, [r])] from rfl]
      intro p hp
      rcases List.mem_singleton.mp hp with rfl
      simp
  | cons q rest ih =>
      obtain ⟨k2, bkt⟩ := q
      have hhead := h (k2, bkt) (List.mem_cons_self _ _)
      have htail : ∀ p ∈ rest, (p : Cell × List Nat).2.Nodup :=
        fun p hp => h p (List.mem_cons_of_mem _ hp)
      by_cases hk : k2 = k
      · subst hk
        rw [show gridAdd k2 r ((k2, bkt) :: rest) =
              (k2, if r ∈ bkt then bkt else r :: bkt) :: rest from by
            simp [gridAdd]]
        intro p hp
        rcases List.mem_cons.mp hp with rfl | hp2
        · show (if r ∈ bkt then bkt else r :: bkt).Nodup
          by_cases hrb : r ∈ bkt
          · rw [if_pos hrb]; exact hhead
          · rw [if_neg hrb]; exact List.nodup_cons.mpr ⟨hrb, hhead⟩
        · exact htail p hp2
      · rw [show gridAdd k r ((k2, bkt) :: rest) = (k2, bkt) :: gridAdd k r rest from by
            simp [gridAdd, hk]]
        intro p hp
        rcases List.mem_cons.mp hp with rfl | hp2
        · exact hhead
        · exact ih htail p hp2

theorem gridAdd_buckets_nonempty (g : Grid) (k : Cell) (r : Nat)
    (h : ∀ p ∈ g, (p : Cell × List Nat).2 ≠ []) :
    ∀ p ∈ gridAdd k r g, (p : Cell × List Nat).2 ≠ [] := by
  induction g with
  | nil =>
      rw [show gridAdd k r [] = [(k, [r])] from rfl]
      intro p hp
      rcases List.mem_singleton.mp hp with rfl
      simp
  | cons q rest ih =>
      obtain ⟨k2, bkt⟩ := q
      have hhead := h (k2, bkt) (List.mem_cons_self _ _)
      have htail : ∀ p ∈ rest, (p : Cell × List Nat).2 ≠ [] :=
        fun p hp => h p (List.mem_cons_of_mem _ hp)
      by_cases hk : k2 = k
      · subst hk
        rw [show gridAdd k2 r ((k2, bkt) :: rest) =
              (k2, if r ∈ bkt then bkt else r :: bkt) :: rest from by
            simp [gridAdd]]
        intro p hp
        rcases List.mem_cons.mp hp with rfl | hp2
        · show (if r ∈ bkt then bkt else r :: bkt) ≠ []
          by_cases hrb : r ∈ bkt
          · rw [if_pos hrb]; exact hhead
          · rw [if_neg hrb]; exact List.cons_ne_nil _ _
        · exact htail p hp2
      · rw [show gridAdd k r ((k2, bkt) :: rest) = (k2, bkt) :: gridAdd k r rest from by
            simp [gridAdd, hk]]
        intro p hp
        rcases List.mem_cons.mp hp with rfl | hp2
        · exact hhead
        · exact ih htail p hp2

theorem gridDel_keys_sublist (g : Grid) (k : Cell) (r : Nat) :
    List.Sublist ((gridDel k r g).map Prod.fst) (g.map Prod.fst) := by
  induction g with
  | nil => simp [gridDel]
  | cons q rest ih =>
      obtain ⟨k2, bkt⟩ := q
      by_cases hk : k2 = k
      · subst hk
        rw [show gridDel k2 r ((k2, bkt) :: rest) =
              (if bkt.erase r = [] then rest else (k2, bkt.erase r) :: rest) from by
            simp [gridDel]]
        by_cases he : bkt.erase r = []
        · rw [if_pos he, List.map_cons]
          exact List.sublist_cons_of_sublist _ (List.Sublist.refl _)
        · rw [if_neg he]
          simp only [List.map_cons]
          exact List.Sublist.cons₂ _ (List.Sublist.refl _)
      · rw [show gridDel k r ((k2, bkt) :: rest) = (k2, bkt) :: gridDel k r rest from by
            simp [gridDel, hk]]
        rw [List.map_cons, List.map_cons]
        exact List.Sublist.cons₂ _ ih

theorem gridDel_keys_nodup (g : Grid) (k : Cell) (r : Nat)
    (h : (g.map Prod.fst).Nodup) : ((gridDel k r g).map Prod.fst).Nodup :=
  (gridDel_keys_sublist g k r).nodup h

theorem gridDel_buckets_nodup (g : Grid) (k : Cell) (r : Nat)
    (h : ∀ p ∈ g, (p : Cell × List Nat).2.Nodup) :
    ∀ p ∈ gridDel k r g, (p : Cell × List Nat).2.Nodup := by
  induction g with
  | nil => simp [gridDel]
  | cons q rest ih =>
      obtain ⟨k2, bkt⟩ := q
      have hhead := h (k2, bkt) (List.mem_cons_self _ _)
      have htail : ∀ p ∈ rest, (p : Cell × List Nat).2.Nodup :=
        fun p hp => h p (List.mem_cons_of_mem _ hp)
      by_cases hk : k2 = k
      · subst hk
        rw [show gridDel k2 r ((k2, bkt) :: rest) =
              (if bkt.erase r = [] then rest else (k2, bkt.erase r) :: rest) from by
            simp [gridDel]]
        by_cases he : bkt.erase r = []
        · rw [if_pos he]
          exact htail
        · rw [if_neg he]
          intro p hp
          rcases List.mem_cons.mp hp with rfl | hp2
          · exact hhead.erase r
          · exact htail p hp2
      · rw [show gridDel k r ((k2, bkt) :: rest) = (k2, bkt) :: gridDel k r rest from by
            simp [gridDel, hk]]
        intro p hp
        rcases List.mem_cons.mp hp with rfl | hp2
        · exact hhead
        · exact ih htail p hp2

theorem gridDel_buckets_nonempty (g : Grid) (k : Cell) (r : Nat)
    (h : ∀ p ∈ g, (p : Cell × List Nat).2 ≠ []) :
    ∀ p ∈ gridDel k r g, (p : Cell × List Nat).2 ≠ [] := by
  induction g with
  | nil => simp [gridDel]
  | cons q rest ih =>
      obtain ⟨k2, bkt⟩ := q
      have hhead := h (k2, bkt) (List.mem_cons_self _ _)
      have htail : ∀ p ∈ rest, (p : Cell × List Nat).2 ≠ [] :=
        fun p hp => h p (List.mem_cons_of_mem _ hp)
      by_cases hk : k2 = k
      · subst hk
        rw [show gridDel k2 r ((k2, bkt) :: rest) =
              (if bkt.erase r = [] then rest else (k2, bkt.erase r) :: rest) from by
            simp [gridDel]]
        by_cases he : bkt.erase r = []
        · rw [if_pos he]
          exact htail
        · rw [if_neg he]
          intro p hp
          rcases List.mem_cons.mp hp with rfl | hp2
          · exact he
          · exact htail p hp2
      · rw [show gridDel k r ((k2, bkt) :: rest) = (k2, bkt) :: gridDel k r rest from by
            simp [gridDel, hk]]
        intro p hp
        rcases List.mem_cons.mp hp with rfl | hp2
        · exact hhead
        · exact ih htail p hp2

theorem inPairs_gridDel (g : Grid) (k : Cell) (r : Nat) (k1 : Cell) (r1 : Nat)
    (hkeys : (g.map Prod.fst).Nodup)
    (hbkts : ∀ p ∈ g, (p : Cell × List Nat).2.Nodup) :
    InPairs (gridDel k r g) k1 r1 ↔ InPairs g k1 r1 ∧ ¬(k1 = k ∧ r1 = r) := by
  induction g with
  | nil => simp [gridDel, inPairs_nil]
  | cons q rest ih =>
      obtain ⟨k2, bkt⟩ := q
      simp only [List.map_cons, List.nodup_cons] at hkeys
      have hbhead := hbkts (k2, bkt) (List.mem_cons_self _ _)
      have hbtail : ∀ p ∈ rest, (p : Cell × List Nat).2.Nodup :=
        fun p hp => hbkts p (List.mem_cons_of_mem _ hp)
      have hknotin : k2 ∉ rest.map Prod.fst := hkeys.1
      by_cases hk : k2 = k
      · subst hk
        rw [show gridDel k2 r ((k2, bkt) :: rest) =
              (if bkt.erase r = [] then rest else (k2, bkt.erase r) :: rest) from by
            simp [gridDel]]
        have hrestk2 : ∀ r2, ¬ InPairs rest k2 r2 := by
          intro r2 hIn
          exact hknotin (inPairs_key_mem rest k2 r2 hIn)
        by_cases he : bkt.erase r = []
        · rw [if_pos he]
          have hbsub : ∀ x ∈ bkt, x = r := by
            intro x hx
            by_contra hne
            have hxe : x ∈ bkt.erase r := (hbhead.mem_erase_iff).mpr ⟨hne, hx⟩
            rw [he] at hxe
            simp at hxe
          rw [inPairs_cons]
          constructor
          · intro hIn
            refine ⟨Or.inr hIn, ?_⟩
            rintro ⟨rfl, rfl⟩
            exact hrestk2 _ hIn
          · rintro ⟨(⟨rfl, hr⟩ | hIn), hne⟩
            · exact absurd ⟨rfl, hbsub r1 hr⟩ hne
            · exact hIn
        · rw [if_neg he]
          rw [inPairs_cons, inPairs_cons]
          constructor
          · rintro (⟨rfl, hr⟩ | hIn)
            · have := (hbhead.mem_erase_iff).mp hr
              exact ⟨Or.inl ⟨rfl, this.2⟩, fun hc => this.1 hc.2⟩
            · refine ⟨Or.inr hIn, ?_⟩
              rintro ⟨rfl, rfl⟩
              exact hrestk2 _ hIn
          · rintro ⟨(⟨rfl, hr⟩ | hIn), hne⟩
            · refine Or.inl ⟨rfl, (hbhead.mem_erase_iff).mpr ⟨?_, hr⟩⟩
              intro hrr
              exact hne ⟨rfl, hrr⟩
            · exact Or.inr hIn
      · rw [show gridDel k r ((k2, bkt) :: rest) = (k2, bkt) :: gridDel k r rest from by
            simp [gridDel, hk]]
        rw [inPairs_cons, inPairs_cons, ih hkeys.2 hbtail]
        constructor
        · rintro (⟨rfl, hr⟩ | ⟨hIn, hne⟩)
          · exact ⟨Or.inl ⟨rfl, hr⟩, fun hc => hk hc.1⟩
          · exact ⟨Or.inr hIn, hne⟩
        · rintro ⟨(⟨rfl, hr⟩ | hIn), hne⟩
          · exact Or.inl ⟨rfl, hr⟩
          · exact Or.inr ⟨hIn, hne⟩

theorem findBirdIdx_decomp (id : Nat) (l : List BirdPosition) (i : Nat) (b : BirdPosition)
    (h : findBirdIdx id l = some (i, b)) :
    ∃ pre post, l = pre ++ b :: post ∧ pre.length = i ∧ b.id = id := by
  induction l generalizing i with
  | nil => simp [findBirdIdx] at h
  | cons a rest ih =>
      by_cases ha : a.id = id
      · rw [show findBirdIdx id (a :: rest) = some (0, a) from by
            simp [findBirdIdx, ha]] at h
        obtain ⟨hi, hb⟩ := Prod.mk.injEq .. ▸ Option.some.injEq .. ▸ h
        refine ⟨[], rest, by simp [hb], by simp [← hi], ?_⟩
        rw [← hb]
        exact ha
      · rw [show findBirdIdx id (a :: rest) =
              (findBirdIdx id rest).map (fun p => (p.1 + 1, p.2)) from by
            simp [findBirdIdx, ha]] at h
        cases hr : findBirdIdx id rest with
        | none => rw [hr] at h; exact Option.noConfusion h
        | some p =>
            obtain ⟨j, b2⟩ := p
            rw [hr] at h
            simp only [Option.map_some', Option.some.injEq, Prod.mk.injEq] at h
            obtain ⟨hi, hb⟩ := h
            obtain ⟨pre, post, hsplit, hlen, hid⟩ := ih j (hb ▸ hr)
            exact ⟨a :: pre, post, by rw [hsplit, List.cons_append],
              by simp [hlen, ← hi], hid⟩

theorem set_middle (pre : List BirdPosition) (b c : BirdPosition) (post : List BirdPosition) :
    (pre ++ b :: post).set pre.length c = pre ++ c :: post := by
  induction pre with
  | nil => rfl
  | cons a t ih => simp [List.set, ih]

theorem set_out_of_range (l : List BirdPosition) (n : Nat) (c : BirdPosition)
    (h : l.length ≤ n) : l.set n c = l := by
  induction l generalizing n with
  | nil => rfl
  | cons a t ih =>
      cases n with
      | zero => simp at h
      | succ m =>
          simp only [List.length_cons, Nat.add_le_add_iff_right] at h
          simp [List.set, ih m h]

theorem swapRemove_cases (pre : List BirdPosition) (b : BirdPosition)
    (post : List BirdPosition) :
    (post = [] ∧ swapRemove (pre ++ b :: post) pre.length = pre) ∨
    (∃ mid lastb, post = mid ++ [lastb] ∧
      swapRemove (pre ++ b :: post) pre.length = pre ++ lastb :: mid) := by
  rcases List.eq_nil_or_concat post with rfl | ⟨mid, lastb, rfl⟩
  · left
    refine ⟨rfl, ?_⟩
    unfold swapRemove
    rw [show pre ++ [b] = pre ++ [b] from rfl, List.getLast?_concat, List.dropLast_concat]
    exact set_out_of_range pre pre.length b (le_refl _)
  · right
    refine ⟨mid, lastb, by simp, ?_⟩
    simp only [List.concat_eq_append]
    unfold swapRemove
    have hform : pre ++ b :: (mid ++ [lastb]) = (pre ++ b :: mid) ++ [lastb] := by
      simp
    rw [hform, List.getLast?_concat, List.dropLast_concat]
    exact set_middle pre b lastb mid

theorem mem_swapRemove_parts (pre : List BirdPosition) (b : BirdPosition)
    (post : List BirdPosition) (x : BirdPosition) :
    x ∈ swapRemove (pre ++ b :: post) pre.length ↔ x ∈ pre ++ post := by
  rcases swapRemove_cases pre b post with ⟨rfl, heq⟩ | ⟨mid, lastb, rfl, heq⟩
  · rw [heq]
    simp
  · rw [heq]
    simp [List.mem_append, List.mem_cons]
    tauto

/-- The inductive invariant tying the spatial index to the active-target
list: ids are distinct and below the fresh counter, grid keys are
distinct, buckets are duplicate-free and nonempty, every active target
records the cell of its current position, and the pairs stored in the
grid are exactly the (cell, id) pairs of the active targets. -/
structure SpatialInv (cs : ℚ) (s : SimState) : Prop where
  nodupIds : (s.birds.map BirdPosition.id).Nodup
  idsLt : ∀ b ∈ s.birds, b.id < s.nextId
  keysNodup : (s.grid.map Prod.fst).Nodup
  bucketsNodup : ∀ p ∈ s.grid, (p : Cell × List Nat).2.Nodup
  bucketsNonempty : ∀ p ∈ s.grid, (p : Cell × List Nat).2 ≠ []
  cellKeyEq : ∀ b ∈ s.birds, b.cellKey = some (getCellKeyFromXY b.x b.y cs)
  pairsIff : ∀ k r, InPairs s.grid k r ↔
    ∃ b ∈ s.birds, b.id = r ∧ getCellKeyFromXY b.x b.y cs = k

theorem spatialInv_init (cs : ℚ) : SpatialInv cs initSimState := by
  constructor <;> simp [initSimState, inPairs_nil]

theorem simStep_spawn (cs : ℚ) (s : SimState) (bt : BirdType) (x y vx vy : ℚ)
    (now : Nat) :
    simStep cs s (.spawn bt x y vx vy now) =
      { nextId := s.nextId + 1,
        birds := s.birds ++ [spawnedBird cs s.nextId bt x y vx vy now],
        pool := (createBirdInstance s.pool s.nextId bt x y vx vy now).2,
        grid := gridAdd (getCellKeyFromXY x y cs) s.nextId s.grid } :=
  rfl

theorem spawnedBird_fields (cs : ℚ) (newId : Nat) (bt : BirdType) (x y vx vy : ℚ)
    (now : Nat) :
    (spawnedBird cs newId bt x y vx vy now).id = newId ∧
    (spawnedBird cs newId bt x y vx vy now).x = x ∧
    (spawnedBird cs newId bt x y vx vy now).y = y ∧
    (spawnedBird cs newId bt x y vx vy now).cellKey =
      some (getCellKeyFromXY x y cs) :=
  ⟨rfl, rfl, rfl, rfl⟩

theorem spatialInv_spawn (cs : ℚ) (s : SimState) (bt : BirdType) (x y vx vy : ℚ)
    (now : Nat) (h : SpatialInv cs s) :
    SpatialInv cs (simStep cs s (.spawn bt x y vx vy now)) := by
  rw [simStep_spawn]
  set k := getCellKeyFromXY x y cs with hk
  set nb : BirdPosition := spawnedBird cs s.nextId bt x y vx vy now with hnb
  have hfresh : s.nextId ∉ s.birds.map BirdPosition.id := by
    intro hmem
    obtain ⟨b, hb, hbid⟩ := List.mem_map.mp hmem
    exact absurd hbid (Nat.ne_of_lt (h.idsLt b hb))
  constructor
  · simp only [List.map_append]
    rw [List.nodup_append]
    refine ⟨h.nodupIds, by simp, ?_⟩
    intro a ha
    simp only [List.map_cons, List.map_nil, List.mem_cons, List.not_mem_nil, or_false]
    intro heq
    rw [show nb.id = s.nextId from rfl] at heq
    exact hfresh (heq ▸ ha)
  · intro b hb
    rcases List.mem_append.mp hb with hmem | hmem
    · exact Nat.lt_succ_of_lt (h.idsLt b hmem)
    · rw [List.mem_singleton.mp hmem]
      exact Nat.lt_succ_self _
  · exact gridAdd_keys_nodup _ _ _ h.keysNodup
  · exact gridAdd_buckets_nodup _ _ _ h.bucketsNodup
  · exact gridAdd_buckets_nonempty _ _ _ h.bucketsNonempty
  · intro b hb
    rcases List.mem_append.mp hb with hmem | hmem
    · exact h.cellKeyEq b hmem
    · rw [List.mem_singleton.mp hmem]
      rfl
  · intro k1 r1
    rw [inPairs_gridAdd, h.pairsIff]
    constructor
    · rintro (⟨b, hb, hbid, hbk⟩ | ⟨rfl, rfl⟩)
      · exact ⟨b, List.mem_append_left _ hb, hbid, hbk⟩
      · exact ⟨nb, List.mem_append_right _ (List.mem_singleton.mpr rfl), rfl, rfl⟩
    · rintro ⟨b, hb, hbid, hbk⟩
      rcases List.mem_append.mp hb with hmem | hmem
      · exact Or.inl ⟨b, hmem, hbid, hbk⟩
      · rw [List.mem_singleton.mp hmem] at hbid hbk
        exact Or.inr ⟨hbk.symm, hbid.symm⟩

theorem simStep_move_none (cs : ℚ) (s : SimState) (id : Nat) (nx ny : ℚ)
    (hf : findBirdIdx id s.birds = none) :
    simStep cs s (.move id nx ny) = s := by
  show simStepMove cs s id nx ny = s
  unfold simStepMove
  rw [hf]

theorem simStep_retire_none (cs : ℚ) (s : SimState) (id : Nat)
    (hf : findBirdIdx id s.birds = none) :
    simStep cs s (.retire id) = s := by
  show simStepRetire s id = s
  unfold simStepRetire
  rw [hf]

theorem simStep_move_found (cs : ℚ) (s : SimState) (id : Nat) (nx ny : ℚ)
    (i : Nat) (b : BirdPosition) (hf : findBirdIdx id s.birds = some (i, b)) :
    simStep cs s (.move id nx ny) =
      { s with
        birds := s.birds.set i
          (spatialUpdateIfMoved cs { b with x := nx, y := ny } s.grid).1,
        grid := (spatialUpdateIfMoved cs { b with x := nx, y := ny } s.grid).2 } := by
  show simStepMove cs s id nx ny = _
  unfold simStepMove
  rw [hf]

theorem simStep_retire_found (cs : ℚ) (s : SimState) (id : Nat)
    (i : Nat) (b : BirdPosition) (hf : findBirdIdx id s.birds = some (i, b)) :
    simStep cs s (.retire id) =
      { s with
        birds := swapRemove s.birds i,
        pool := s.pool ++ [{ (spatialRemove b s.grid).1 with active := false }],
        grid := (spatialRemove b s.grid).2 } := by
  show simStepRetire s id = _
  unfold simStepRetire
  rw [hf]

theorem spatialUpdateIfMoved_same (cs : ℚ) (b : BirdPosition) (g : Grid)
    (hc : b.cellKey = some (getCellKeyFromXY b.x b.y cs)) :
    spatialUpdateIfMoved cs b g = (b, g) := by
  unfold spatialUpdateIfMoved
  rw [if_pos hc]

theorem spatialUpdateIfMoved_diff (cs : ℚ) (b : BirdPosition) (g : Grid) (k0 : Cell)
    (hc : b.cellKey = some k0) (hne : k0 ≠ getCellKeyFromXY b.x b.y cs) :
    spatialUpdateIfMoved cs b g =
      ({ b with cellKey := some (getCellKeyFromXY b.x b.y cs) },
        gridAdd (getCellKeyFromXY b.x b.y cs) b.id (gridDel k0 b.id g)) := by
  unfold spatialUpdateIfMoved
  rw [if_neg (by rw [hc]; exact fun he => hne (Option.some.inj he))]
  rw [hc]

theorem spatialRemove_eq (b : BirdPosition) (g : Grid) (k0 : Cell)
    (hc : b.cellKey = some k0) :
    spatialRemove b g = ({ b with cellKey := none }, gridDel k0 b.id g) := by
  unfold spatialRemove
  rw [hc]

theorem nodup_middle_facts (pre : List BirdPosition) (b : BirdPosition)
    (post : List BirdPosition)
    (h : ((pre ++ b :: post).map BirdPosition.id).Nodup) :
    b.id ∉ pre.map BirdPosition.id ∧ b.id ∉ post.map BirdPosition.id ∧
    ((pre ++ post).map BirdPosition.id).Nodup := by
  rw [List.map_append, List.map_cons] at h
  have hperm : (pre.map BirdPosition.id ++ b.id :: post.map BirdPosition.id).Perm
      (b.id :: (pre.map BirdPosition.id ++ post.map BirdPosition.id)) :=
    List.perm_middle
  have h2 := hperm.nodup h
  rw [List.nodup_cons] at h2
  refine ⟨fun hm => h2.1 (List.mem_append_left _ hm),
    fun hm => h2.1 (List.mem_append_right _ hm), ?_⟩
  rw [List.map_append]
  exact h2.2

theorem swapRemove_perm (pre : List BirdPosition) (b : BirdPosition)
    (post : List BirdPosition) :
    (swapRemove (pre ++ b :: post) pre.length).Perm (pre ++ post) := by
  rcases swapRemove_cases pre b post with ⟨rfl, heq⟩ | ⟨mid, lastb, rfl, heq⟩
  · rw [heq, List.append_nil]
  · rw [heq]
    exact List.Perm.append_left pre (List.perm_append_singleton _ _).symm

/-- The target as rewritten by a cross-cell per-tick move: new position
and the refreshed bucket key. -/
def movedBird (cs : ℚ) (b : BirdPosition) (nx ny : ℚ) : BirdPosition :=
  { b with x := nx, y := ny, cellKey := some (getCellKeyFromXY nx ny cs) }

theorem simStep_move_clean_same (cs : ℚ) (s : SimState) (id : Nat) (nx ny : ℚ)
    (i : Nat) (b : BirdPosition) (pre post : List BirdPosition)
    (hf : findBirdIdx id s.birds = some (i, b))
    (hsplit : s.birds = pre ++ b :: post) (hlen : pre.length = i)
    (hsame : ({ b with x := nx, y := ny } : BirdPosition).cellKey =
      some (getCellKeyFromXY nx ny cs)) :
    simStep cs s (.move id nx ny) =
      { s with birds := pre ++ ({ b with x := nx, y := ny } : BirdPosition) :: post } := by
  rw [simStep_move_found cs s id nx ny i b hf]
  rw [spatialUpdateIfMoved_same cs _ s.grid hsame]
  rw [hsplit, ← hlen, set_middle]

theorem simStep_move_clean_diff (cs : ℚ) (s : SimState) (id : Nat) (nx ny : ℚ)
    (i : Nat) (b : BirdPosition) (pre post : List BirdPosition) (k0 : Cell)
    (hf : findBirdIdx id s.birds = some (i, b))
    (hsplit : s.birds = pre ++ b :: post) (hlen : pre.length = i)
    (hck : b.cellKey = some k0)
    (hne : k0 ≠ getCellKeyFromXY nx ny cs) :
    simStep cs s (.move id nx ny) =
      { s with
        birds := pre ++ movedBird cs b nx ny :: post,
        grid := gridAdd (getCellKeyFromXY nx ny cs) b.id (gridDel k0 b.id s.grid) } := by
  rw [simStep_move_found cs s id nx ny i b hf]
  rw [spatialUpdateIfMoved_diff cs { b with x := nx, y := ny } s.grid k0 hck hne]
  rw [hsplit, ← hlen, set_middle]
  rfl

theorem simStep_retire_clean (cs : ℚ) (s : SimState) (id : Nat)
    (i : Nat) (b : BirdPosition) (pre post : List BirdPosition) (k0 : Cell)
    (hf : findBirdIdx id s.birds = some (i, b))
    (hsplit : s.birds = pre ++ b :: post) (hlen : pre.length = i)
    (hck : b.cellKey = some k0) :
    simStep cs s (.retire id) =
      { s with
        birds := swapRemove (pre ++ b :: post) pre.length,
        pool := s.pool ++ [{ b with cellKey := none, active := false }],
        grid := gridDel k0 b.id s.grid } := by
  rw [simStep_retire_found cs s id i b hf, spatialRemove_eq b s.grid k0 hck,
    hsplit, ← hlen]

theorem spatialInv_move (cs : ℚ) (s : SimState) (id : Nat) (nx ny : ℚ)
    (h : SpatialInv cs s) : SpatialInv cs (simStep cs s (.move id nx ny)) := by
  cases hf : findBirdIdx id s.birds with
  | none => rw [simStep_move_none cs s id nx ny hf]; exact h
  | some p =>
      obtain ⟨i, b⟩ := p
      obtain ⟨pre, post, hsplit, hlen, hbid⟩ := findBirdIdx_decomp id s.birds i b hf
      have hbmem : b ∈ s.birds := by
        rw [hsplit]
        exact List.mem_append_right _ (List.mem_cons_self _ _)
      have hck : b.cellKey = some (getCellKeyFromXY b.x b.y cs) := h.cellKeyEq b hbmem
      have hndf := nodup_middle_facts pre b post (by rw [← hsplit]; exact h.nodupIds)
      have hmemorig : ∀ b2 : BirdPosition, b2 ∈ pre ∨ b2 ∈ post → b2 ∈ s.birds := by
        intro b2 hm
        rw [hsplit]
        rcases hm with hm | hm
        · exact List.mem_append_left _ hm
        · exact List.mem_append_right _ (List.mem_cons_of_mem _ hm)
      by_cases hkeq : getCellKeyFromXY b.x b.y cs = getCellKeyFromXY nx ny cs
      · rw [simStep_move_clean_same cs s id nx ny i b pre post hf hsplit hlen
          (by rw [show ({ b with x := nx, y := ny } : BirdPosition).cellKey =
                b.cellKey from rfl, hck, hkeq])]
        constructor <;> dsimp only
        · have := h.nodupIds
          rw [hsplit] at this
          simpa using this
        · intro b2 hb2
          simp only [List.mem_append, List.mem_cons] at hb2
          rcases hb2 with hm | rfl | hm
          · exact h.idsLt b2 (hmemorig b2 (Or.inl hm))
          · exact h.idsLt b hbmem
          · exact h.idsLt b2 (hmemorig b2 (Or.inr hm))
        · exact h.keysNodup
        · exact h.bucketsNodup
        · exact h.bucketsNonempty
        · intro b2 hb2
          simp only [List.mem_append, List.mem_cons] at hb2
          rcases hb2 with hm | rfl | hm
          · exact h.cellKeyEq b2 (hmemorig b2 (Or.inl hm))
          · show b.cellKey = some (getCellKeyFromXY nx ny cs)
            rw [hck, hkeq]
          · exact h.cellKeyEq b2 (hmemorig b2 (Or.inr hm))
        · intro k1 r1
          rw [h.pairsIff, hsplit]
          constructor
          · rintro ⟨b2, hb2, hbid2, hbk2⟩
            simp only [List.mem_append, List.mem_cons] at hb2
            rcases hb2 with hm | rfl | hm
            · exact ⟨b2, by simp [hm], hbid2, hbk2⟩
            · refine ⟨{ b2 with x := nx, y := ny }, by simp, hbid2, ?_⟩
              show getCellKeyFromXY nx ny cs = k1
              exact hkeq.symm.trans hbk2
            · exact ⟨b2, by simp [hm], hbid2, hbk2⟩
          · rintro ⟨b2, hb2, hbid2, hbk2⟩
            simp only [List.mem_append, List.mem_cons] at hb2
            rcases hb2 with hm | rfl | hm
            · exact ⟨b2, by simp [hm], hbid2, hbk2⟩
            · refine ⟨b, by simp, hbid2, ?_⟩
              show getCellKeyFromXY b.x b.y cs = k1
              exact hkeq.trans hbk2
            · exact ⟨b2, by simp [hm], hbid2, hbk2⟩
      · rw [simStep_move_clean_diff cs s id nx ny i b pre post
          (getCellKeyFromXY b.x b.y cs) hf hsplit hlen hck hkeq]
        constructor <;> dsimp only
        · have := h.nodupIds
          rw [hsplit] at this
          simpa using this
        · intro b2 hb2
          simp only [List.mem_append, List.mem_cons] at hb2
          rcases hb2 with hm | rfl | hm
          · exact h.idsLt b2 (hmemorig b2 (Or.inl hm))
          · exact h.idsLt b hbmem
          · exact h.idsLt b2 (hmemorig b2 (Or.inr hm))
        · exact gridAdd_keys_nodup _ _ _ (gridDel_keys_nodup _ _ _ h.keysNodup)
        · exact gridAdd_buckets_nodup _ _ _ (gridDel_buckets_nodup _ _ _ h.bucketsNodup)
        · exact gridAdd_buckets_nonempty _ _ _
            (gridDel_buckets_nonempty _ _ _ h.bucketsNonempty)
        · intro b2 hb2
          simp only [List.mem_append, List.mem_cons] at hb2
          rcases hb2 with hm | rfl | hm
          · exact h.cellKeyEq b2 (hmemorig b2 (Or.inl hm))
          · rfl
          · exact h.cellKeyEq b2 (hmemorig b2 (Or.inr hm))
        · intro k1 r1
          rw [inPairs_gridAdd, inPairs_gridDel _ _ _ _ _ h.keysNodup h.bucketsNodup,
            h.pairsIff, hsplit]
          constructor
          · rintro (⟨⟨b2, hb2, hbid2, hbk2⟩, hne2⟩ | ⟨rfl, rfl⟩)
            · simp only [List.mem_append, List.mem_cons] at hb2
              rcases hb2 with hm | rfl | hm
              · exact ⟨b2, by simp [hm], hbid2, hbk2⟩
              · exact (hne2 ⟨hbk2.symm, hbid2.symm⟩).elim
              · exact ⟨b2, by simp [hm], hbid2, hbk2⟩
            · exact ⟨movedBird cs b nx ny, by simp, rfl, rfl⟩
          · rintro ⟨b2, hb2, hbid2, hbk2⟩
            simp only [List.mem_append, List.mem_cons] at hb2
            rcases hb2 with hm | rfl | hm
            · refine Or.inl ⟨⟨b2, by simp [hm], hbid2, hbk2⟩, ?_⟩
              rintro ⟨rfl, rfl⟩
              exact hndf.1 (hbid2 ▸ List.mem_map_of_mem BirdPosition.id hm)
            · exact Or.inr ⟨hbk2.symm, hbid2.symm⟩
            · refine Or.inl ⟨⟨b2, by simp [hm], hbid2, hbk2⟩, ?_⟩
              rintro ⟨rfl, rfl⟩
              exact hndf.2.1 (hbid2 ▸ List.mem_map_of_mem BirdPosition.id hm)

theorem spatialInv_retire (cs : ℚ) (s : SimState) (id : Nat)
    (h : SpatialInv cs s) : SpatialInv cs (simStep cs s (.retire id)) := by
  cases hf : findBirdIdx id s.birds with
  | none => rw [simStep_retire_none cs s id hf]; exact h
  | some p =>
      obtain ⟨i, b⟩ := p
      obtain ⟨pre, post, hsplit, hlen, hbid⟩ := findBirdIdx_decomp id s.birds i b hf
      have hbmem : b ∈ s.birds := by
        rw [hsplit]
        exact List.mem_append_right _ (List.mem_cons_self _ _)
      have hck : b.cellKey = some (getCellKeyFromXY b.x b.y cs) := h.cellKeyEq b hbmem
      have hndf := nodup_middle_facts pre b post (by rw [← hsplit]; exact h.nodupIds)
      have hmemorig : ∀ b2 : BirdPosition, b2 ∈ pre ∨ b2 ∈ post → b2 ∈ s.birds := by
        intro b2 hm
        rw [hsplit]
        rcases hm with hm | hm
        · exact List.mem_append_left _ hm
        · exact List.mem_append_right _ (List.mem_cons_of_mem _ hm)
      have hmemswap : ∀ b2 : BirdPosition,
          b2 ∈ swapRemove (pre ++ b :: post) pre.length ↔ b2 ∈ pre ++ post :=
        fun b2 => mem_swapRemove_parts pre b post b2
      rw [simStep_retire_clean cs s id i b pre post
        (getCellKeyFromXY b.x b.y cs) hf hsplit hlen hck]
      constructor <;> dsimp only
      · exact (((swapRemove_perm pre b post).map BirdPosition.id).symm.nodup hndf.2.2)
      · intro b2 hb2
        rw [hmemswap b2, List.mem_append] at hb2
        exact h.idsLt b2 (hmemorig b2 hb2)
      · exact gridDel_keys_nodup _ _ _ h.keysNodup
      · exact gridDel_buckets_nodup _ _ _ h.bucketsNodup
      · exact gridDel_buckets_nonempty _ _ _ h.bucketsNonempty
      · intro b2 hb2
        rw [hmemswap b2, List.mem_append] at hb2
        exact h.cellKeyEq b2 (hmemorig b2 hb2)
      · intro k1 r1
        rw [inPairs_gridDel _ _ _ _ _ h.keysNodup h.bucketsNodup, h.pairsIff, hsplit]
        constructor
        · rintro ⟨⟨b2, hb2, hbid2, hbk2⟩, hne2⟩
          simp only [List.mem_append, List.mem_cons] at hb2
          rcases hb2 with hm | rfl | hm
          · exact ⟨b2, (hmemswap b2).mpr (List.mem_append_left _ hm), hbid2, hbk2⟩
          · exact (hne2 ⟨hbk2.symm, hbid2.symm⟩).elim
          · exact ⟨b2, (hmemswap b2).mpr (List.mem_append_right _ hm), hbid2, hbk2⟩
        · rintro ⟨b2, hb2, hbid2, hbk2⟩
          rw [hmemswap b2, List.mem_append] at hb2
          refine ⟨⟨b2, ?_, hbid2, hbk2⟩, ?_⟩
          · rcases hb2 with hm | hm
            · simp [hm]
            · simp [hm]
          · rintro ⟨rfl, rfl⟩
            rcases hb2 with hm | hm
            · exact hndf.1 (hbid2 ▸ List.mem_map_of_mem BirdPosition.id hm)
            · exact hndf.2.1 (hbid2 ▸ List.mem_map_of_mem BirdPosition.id hm)

theorem spatialInv_step (cs : ℚ) (s : SimState) (op : SimOp)
    (h : SpatialInv cs s) : SpatialInv cs (simStep cs s op) := by
  cases op with
  | spawn bt x y vx vy now => exact spatialInv_spawn cs s bt x y vx vy now h
  | move id nx ny => exact spatialInv_move cs s id nx ny h
  | retire id => exact spatialInv_retire cs s id h

theorem spatialInv_run (cs : ℚ) (ops : List SimOp) :
    SpatialInv cs (simRun cs ops) := by
  have hgen : ∀ (l : List SimOp) (s : SimState), SpatialInv cs s →
      SpatialInv cs (l.foldl (simStep cs) s) := by
    intro l
    induction l with
    | nil => intro s hs; exact hs
    | cons op rest ih =>
        intro s hs
        exact ih (simStep cs s op) (spatialInv_step cs s op hs)
  exact hgen ops initSimState (spatialInv_init cs)

theorem birds_id_injective (l : List BirdPosition)
    (hnd : (l.map BirdPosition.id).Nodup) (b1 b2 : BirdPosition)
    (h1 : b1 ∈ l) (h2 : b2 ∈ l) (hid : b1.id = b2.id) : b1 = b2 := by
  induction l with
  | nil => simp at h1
  | cons a rest ih =>
      rw [List.map_cons, List.nodup_cons] at hnd
      rcases List.mem_cons.mp h1 with rfl | hm1 <;>
        rcases List.mem_cons.mp h2 with rfl | hm2
      · rfl
      · exact absurd (hid ▸ List.mem_map_of_mem BirdPosition.id hm2) hnd.1
      · exact absurd (hid ▸ List.mem_map_of_mem BirdPosition.id hm1) hnd.1
      · exact ih hnd.2 hm1 hm2

/-- C1: spatial index and active-set consistency: after any sequence of
spawn, per-tick move and retirement operations, the union of the index's
buckets is exactly the set of ids in the active-target list, each active
target's id is present in exactly one bucket, and that bucket is keyed by
the floor-division cell of the target's last-set position (which its
recorded cellKey also equals). -/
theorem spatial_index_consistency (cs : ℚ) (ops : List SimOp) :
    (∀ r, (∃ k, InPairs (simRun cs ops).grid k r) ↔
      r ∈ (simRun cs ops).birds.map BirdPosition.id) ∧
    (∀ r k1 k2, InPairs (simRun cs ops).grid k1 r →
      InPairs (simRun cs ops).grid k2 r → k1 = k2) ∧
    (∀ b ∈ (simRun cs ops).birds,
      b.cellKey = some (getCellKeyFromXY b.x b.y cs) ∧
      InPairs (simRun cs ops).grid (getCellKeyFromXY b.x b.y cs) b.id) := by
  have hinv := spatialInv_run cs ops
  refine ⟨?_, ?_, ?_⟩
  · intro r
    constructor
    · rintro ⟨k, hIn⟩
      obtain ⟨b, hb, hbid, _⟩ := (hinv.pairsIff k r).mp hIn
      exact hbid ▸ List.mem_map_of_mem BirdPosition.id hb
    · intro hmem
      obtain ⟨b, hb, hbid⟩ := List.mem_map.mp hmem
      exact ⟨getCellKeyFromXY b.x b.y cs, (hinv.pairsIff _ r).mpr ⟨b, hb, hbid, rfl⟩⟩
  · intro r k1 k2 hIn1 hIn2
    obtain ⟨b1, hb1, hbid1, hbk1⟩ := (hinv.pairsIff k1 r).mp hIn1
    obtain ⟨b2, hb2, hbid2, hbk2⟩ := (hinv.pairsIff k2 r).mp hIn2
    have hbeq : b1 = b2 :=
      birds_id_injective _ hinv.nodupIds b1 b2 hb1 hb2 (hbid1.trans hbid2.symm)
    rw [← hbk1, ← hbk2, hbeq]
  · intro b hb
    exact ⟨hinv.cellKeyEq b hb,
      (hinv.pairsIff (getCellKeyFromXY b.x b.y cs) b.id).mpr ⟨b, hb, rfl, rfl⟩⟩

theorem cell_of_origin (cs : ℚ) : getCellKeyFromXY 0 0 cs = (0, 0) := by
  unfold getCellKeyFromXY
  rw [zero_div, Int.floor_zero]

theorem spawn_origin_grid :
    (simRun 2 [SimOp.spawn beeType 0 0 (1/2) (1/2) 0]).grid = [((0, 0), [0])] := by
  show (simStep 2 initSimState (SimOp.spawn beeType 0 0 (1/2) (1/2) 0)).grid = _
  rw [simStep_spawn]
  show gridAdd (getCellKeyFromXY 0 0 2) 0 [] = _
  rw [cell_of_origin]
  rfl

/-- Witness for C1: after one spawn at the origin, the new target's id is
in the index, hence in the active list by the consistency theorem. -/
theorem spatial_index_consistency_witness :
    0 ∈ (simRun 2 [SimOp.spawn beeType 0 0 (1/2) (1/2) 0]).birds.map
      BirdPosition.id :=
  (spatial_index_consistency 2 [SimOp.spawn beeType 0 0 (1/2) (1/2) 0]).1 0 |>.mp
    ⟨(0, 0), [0], by rw [spawn_origin_grid]; exact List.mem_singleton.mpr rfl,
      List.mem_singleton.mpr rfl⟩

/-- Witness for C5: a flying target at the origin stored under its cell is
returned by a query at (1,1) with radius 2. -/
theorem query_neighbors_coverage_witness :
    (7 : Nat) ∈ queryNearbyBirds
      [⟨7, beeType, 0, 0, 0, 0, .left, 0, .flying, ⟨0, 0⟩, true, some (0, 0)⟩]
      [((0, 0), [7])] 1 1 2 :=
  (query_neighbors_coverage
      [⟨7, beeType, 0, 0, 0, 0, .left, 0, .flying, ⟨0, 0⟩, true, some (0, 0)⟩]
      [((0, 0), [7])] 1 1 2).2
    ⟨7, beeType, 0, 0, 0, 0, .left, 0, .flying, ⟨0, 0⟩, true, some (0, 0)⟩
    (List.mem_singleton.mpr rfl) (by simp) (by norm_num) rfl
    (by rw [show ((⟨7, beeType, 0, 0, 0, 0, .left, 0, .flying, ⟨0, 0⟩, true,
          some (0, 0)⟩ : BirdPosition)).x = 0 from rfl,
        show ((⟨7, beeType, 0, 0, 0, 0, .left, 0, .flying, ⟨0, 0⟩, true,
          some (0, 0)⟩ : BirdPosition)).y = 0 from rfl, cell_of_origin]
        exact List.mem_singleton.mpr rfl)
    (by norm_num)

end Smash2Cash
